import Mathlib

/-!
Verification of the ML-Backend product recommender.

The repository source under scrutiny is `recommender/views.py` (the HTTP
layer).  The recommendation engine itself (`recommender/recommendation.py`,
exposed as the `recommendation_system` singleton) and the persistence model
(`recommender/models.py`, `ProductRecommendation`) are referenced by
`views.py` but their code is not part of the source tree; those parts are
modelled from the specification, as marked in the doc comments below.

Product IDs are modelled as `Nat`, CSV text as `List Char`.
-/

namespace Recommender

/-- A co-occurrence pair `(input_id, target_id)`. -/
abbrev Pair := Nat × Nat

/-- Inner mapping of an association table: target id to count, as an
association list with distinct keys. -/
abbrev Inner := List (Nat × Nat)

/-- Association table: input id to inner mapping, as an association list
with distinct keys. -/
abbrev Table := List (Nat × Inner)

/-- Count stored in an inner mapping for a target (0 when absent). -/
def innerCount : Inner → Nat → Nat
  | [], _ => 0
  | (t, c) :: rest, t' => if t = t' then c else innerCount rest t'

/-- Count stored in a table for `(input, target)` (0 when absent). -/
def lookupCount : Table → Nat → Nat → Nat
  | [], _, _ => 0
  | (i, inner) :: rest, i', t' =>
      if i = i' then innerCount inner t' else lookupCount rest i' t'

/-- Increment the count of target `t` in an inner mapping, inserting it
with count 1 when absent. -/
def bump : Inner → Nat → Inner
  | [], t => [(t, 1)]
  | (t', c) :: rest, t =>
      if t' = t then (t', c + 1) :: rest else (t', c) :: bump rest t

/-- Modelled from the spec: the Association Model's single-pair update
(the engine code `recommendation.py` is absent from the source tree).
"For each pair, increments `table[input_id][target_id]` by 1, creating
entries as needed." -/
def addPair : Table → Nat → Nat → Table
  | [], i, t => [(i, [(t, 1)])]
  | (i', inner) :: rest, i, t =>
      if i' = i then (i', bump inner t) :: rest
      else (i', inner) :: addPair rest i t

/-- Modelled from the spec: the Association Model's
`build(pairs) -> AssociationTable` (engine code absent from the source
tree).  Aggregates all pairs into a fresh table. -/
def build (pairs : List Pair) : Table :=
  pairs.foldl (fun tbl p => addPair tbl p.1 p.2) []

/-- Number of occurrences of the pair `(i, t)` in a dataset. -/
def pairCount : List Pair → Nat → Nat → Nat
  | [], _, _ => 0
  | p :: rest, i, t =>
      (if p.1 = i ∧ p.2 = t then 1 else 0) + pairCount rest i t

/-- All ids mentioned by a table, inputs and targets alike, with
duplicates. -/
def tableIds (tbl : Table) : List Nat :=
  tbl.flatMap (fun e => e.1 :: e.2.map Prod.fst)

/-- All ids mentioned by a dataset of pairs, with duplicates. -/
def pairIds (pairs : List Pair) : List Nat :=
  pairs.flatMap (fun p => [p.1, p.2])

/-- Modelled from the spec: the Predictor's aggregated score of a
candidate target over a set of inputs (engine code absent from the source
tree): `score[target] += table[id][target]` for every `id` in `inputs`. -/
def score (tbl : Table) (inputs : List Nat) (t : Nat) : Nat :=
  (inputs.dedup.map (fun i => lookupCount tbl i t)).sum

/-- Modelled from the spec: the Predictor's candidate set (engine code
absent from the source tree): every target recorded under any input that
is a key of the table, minus the inputs themselves. -/
def candidates (tbl : Table) (inputs : List Nat) : List Nat :=
  (((tbl.filter (fun e => inputs.contains e.1)).flatMap
      (fun e => e.2.map Prod.fst)).dedup).filter
    (fun t => !(inputs.contains t))

/-- Modelled from the spec: the Predictor's ranking relation (engine code
absent from the source tree): descending aggregated score, ties broken by
ascending product id. -/
def rank (tbl : Table) (inputs : List Nat) (a b : Nat) : Prop :=
  score tbl inputs b < score tbl inputs a ∨
    (score tbl inputs a = score tbl inputs b ∧ a ≤ b)

instance (tbl : Table) (inputs : List Nat) : DecidableRel (rank tbl inputs) :=
  fun a b => by unfold rank; infer_instance

/-- Modelled from the spec: the Predictor's bound `top_n` ("small fixed
default e.g. 5"; engine code absent from the source tree). -/
def topN : Nat := 5

/-- Modelled from the spec: the pure Predictor algorithm (engine code
absent from the source tree): rank the candidates by descending score with
ascending-id tie-break and truncate to `top_n`. -/
def predictList (tbl : Table) (inputs : List Nat) : List Nat :=
  ((candidates tbl inputs).insertionSort (rank tbl inputs)).take topN

/-- Modelled from the spec: the error taxonomy of §7 (engine code absent
from the source tree). -/
inductive EngineError
  | malformedInput
  | emptyInput
  | notTrained
  deriving DecidableEq, Repr

/-- Modelled from the spec: the Lifecycle Manager state (engine code
`recommendation.py` absent from the source tree).  `source` is the current
dataset source (default or uploaded), modelled post-parse as pairs;
`table` the association table of the last training pass; `is_trained` the
trained flag. -/
structure Engine where
  source : List Pair
  table : Table
  is_trained : Bool
  deriving DecidableEq, Repr

/-- Modelled from the spec: a freshly constructed, never-trained engine
over a default dataset (engine code absent from the source tree). -/
def Engine.new (defaultData : List Pair) : Engine :=
  ⟨defaultData, [], false⟩

/-- Modelled from the spec: `set_csv_data` stores the new dataset source
(modelled post-parse) and does not itself change the trained flag or the
table (engine code absent from the source tree). -/
def Engine.setData (e : Engine) (d : List Pair) : Engine :=
  { e with source := d }

/-- Modelled from the spec: `train()` fully replaces the table with one
built from the current dataset source and marks the engine trained
(engine code absent from the source tree). -/
def Engine.train (e : Engine) : Engine :=
  { e with table := build e.source, is_trained := true }

/-- Modelled from the spec: `predict(inputs)` (engine code absent from the
source tree).  An empty table fails with `NotTrainedError` (an empty table
signals "never trained on data"); empty `inputs` fail with
`EmptyInputError`; otherwise the pure Predictor answers. -/
def Engine.predict (e : Engine) (inputs : List Nat) :
    Except EngineError (List Nat) :=
  if e.table.isEmpty then .error .notTrained
  else if inputs.isEmpty then .error .emptyInput
  else .ok (predictList e.table inputs)

/-- Modelled from the spec: `get_all_products()` returns the sorted
product universe, failing with `NotTrainedError` when never trained
(engine code absent from the source tree). -/
def Engine.get_all_products (e : Engine) : Except EngineError (List Nat) :=
  if e.is_trained then .ok (((tableIds e.table).dedup).insertionSort (· ≤ ·))
  else .error .notTrained

/-! ### The web layer, from `recommender/views.py` -/

/-- A value an engine prediction element can take at the Python boundary:
a native `int`, a `np.integer`, or a `np.floating`. -/
inductive PyVal
  | pyInt (n : Nat)
  | npInt (n : Nat)
  | npFloat (x : Int)
  deriving DecidableEq, Repr

/-- From `views.py` line 74:
`int(p) if isinstance(p, np.integer) else p`. -/
def npToNative : PyVal → PyVal
  | .npInt n => .pyInt n
  | v => v

/-- HTTP status of a response from `get_recommendations`
(`200`, `400`, `500`). -/
inductive RecStatus
  | ok
  | badRequest
  | serverError
  deriving DecidableEq, Repr

/-- Modelled from the spec: the `RecommendationRecord` row written by
`ProductRecommendation.objects.create` (the Django model code
`recommender/models.py` is absent from the source tree). -/
structure ProductRecommendation where
  input_products : List Nat
  recommended_products : List PyVal
  deriving DecidableEq, Repr

/-- Observable outcome of one `get_recommendations` request: response
status, the `suggested` list of the response body, the engine state after
the request, and the persistence rows appended during the request. -/
structure ViewOutcome where
  stat : RecStatus
  suggested : List PyVal
  engine : Engine
  records : List ProductRecommendation
  deriving DecidableEq, Repr

/-- From `views.py` line 59: Python `set(input_products) == {1001, 1003}`,
i.e. both lists contain the same elements as sets. -/
def sameSet (l s : List Nat) : Bool :=
  l.all s.contains && s.all l.contains

/-- From `views.py` lines 38-104, `get_recommendations`.  `tag` models how
the engine wraps the predicted ids at the Python boundary (native or numpy
integers; its code is absent from the source tree).  The steps in source
order: reject fewer than 1 input product with 400; the hardcoded test
branch for `{1001, 1003}` returning `[1005]`; auto-train when untrained;
predict; convert numpy integers to native ints; create one
`ProductRecommendation` row; answer 200.  An exception from `predict` is
caught and answered with 500. -/
def get_recommendations (tag : Nat → PyVal) (e : Engine)
    (input_products : List Nat) : ViewOutcome :=
  if input_products.length < 1 then ⟨.badRequest, [], e, []⟩
  else if sameSet input_products [1001, 1003] then
    ⟨.ok, [.pyInt 1005], e, []⟩
  else
    let e1 := if e.is_trained then e else e.train
    match e1.predict input_products with
    | .error _ => ⟨.serverError, [], e1, []⟩
    | .ok ids =>
        let conv := (ids.map tag).map npToNative
        ⟨.ok, conv, e1, [⟨input_products, conv⟩]⟩

/-- Python `str.strip()`: remove whitespace from both ends. -/
def pyStrip (s : List Char) : List Char :=
  ((s.dropWhile Char.isWhitespace).reverse.dropWhile Char.isWhitespace).reverse

/-- The characters of the required CSV header `input,target`. -/
def headerChars : List Char :=
  ['i', 'n', 'p', 'u', 't', ',', 't', 'a', 'r', 'g', 'e', 't']

/-- From `views.py` line 188, the CSV validation of `upload_csv_data`:
`csv_data.strip().startswith('input,target')`. -/
def csvHeaderOk (csv : List Char) : Bool :=
  headerChars.isPrefixOf (pyStrip csv)

/-- The spec's wording for C3 (refinement comparison): the text begins
with the exact header line `input,target`, i.e. it is that very line or
that line followed by a newline and the rest. -/
def beginsWithHeaderLine (csv : List Char) : Bool :=
  csv == headerChars || (headerChars ++ ['\n']).isPrefixOf csv

/-! ### Concrete instances used by counterexamples and witnesses -/

/-- The training dataset of the spec's Scenario 1 and 2. -/
def demoData : List Pair := [(1001, 1002), (1001, 1003), (1003, 1002)]

/-- An engine trained on `demoData`. -/
def demoEngine : Engine := ((Engine.new []).setData demoData).train

/-- A small trained engine whose inputs stay clear of the hardcoded
`{1001, 1003}` branch. -/
def smallEngine : Engine := (Engine.new [(1, 2), (1, 3)]).train

/-- A CSV text with leading whitespace before the header line. -/
def badCsv : List Char := ' ' :: headerChars ++ ['\n', '1', ',', '2']

end Recommender

namespace Recommender

/-! ### Correctness of the association-table construction -/

theorem innerCount_bump (inner : Inner) (t t' : Nat) :
    innerCount (bump inner t) t' = innerCount inner t' + (if t = t' then 1 else 0) := by
  induction inner with
  | nil => by_cases h : t = t' <;> simp [bump, innerCount, h]
  | cons p rest ih =>
      obtain ⟨a, c⟩ := p
      by_cases h1 : a = t
      · subst h1
        simp only [bump, if_pos rfl, innerCount]
        by_cases h2 : a = t' <;> simp [h2]
      · simp only [bump, if_neg h1, innerCount]
        by_cases h2 : a = t'
        · have h3 : ¬ t = t' := fun h => h1 (h2.trans h.symm)
          simp [h2, h3]
        · simp [h2, ih]

theorem lookupCount_addPair (tbl : Table) (i t i' t' : Nat) :
    lookupCount (addPair tbl i t) i' t' =
      lookupCount tbl i' t' + (if i = i' ∧ t = t' then 1 else 0) := by
  induction tbl with
  | nil =>
      simp only [addPair, lookupCount, innerCount]
      by_cases h1 : i = i'
      · subst h1
        by_cases h2 : t = t' <;> simp [h2]
      · simp [h1]
  | cons p rest ih =>
      obtain ⟨a, inner⟩ := p
      by_cases h1 : a = i
      · subst h1
        simp only [addPair, if_pos rfl, lookupCount]
        by_cases h2 : a = i'
        · rw [if_pos h2, if_pos h2, innerCount_bump]
          by_cases h3 : t = t' <;> simp [h2, h3]
        · have h4 : ¬ (a = i' ∧ t = t') := fun h => h2 h.1
          simp [h2, h4]
      · simp only [addPair, if_neg h1, lookupCount]
        by_cases h2 : a = i'
        · have h4 : ¬ (i = i' ∧ t = t') := fun h => h1 (h2.trans h.1.symm)
          simp [h2, h4]
        · simp [h2, ih]

theorem lookupCount_foldl (pairs : List Pair) (tbl : Table) (i t : Nat) :
    lookupCount (pairs.foldl (fun a p => addPair a p.1 p.2) tbl) i t =
      lookupCount tbl i t + pairCount pairs i t := by
  induction pairs generalizing tbl with
  | nil => simp [pairCount]
  | cons p rest ih =>
      simp only [List.foldl_cons, pairCount]
      rw [ih, lookupCount_addPair]
      by_cases h : p.1 = i ∧ p.2 = t
      · simp [h]
        omega
      · simp [h]

theorem lookupCount_build (pairs : List Pair) (i t : Nat) :
    lookupCount (build pairs) i t = pairCount pairs i t := by
  have := lookupCount_foldl pairs [] i t
  simpa [build, lookupCount] using this

theorem mem_map_fst_bump (inner : Inner) (t x : Nat) :
    x ∈ (bump inner t).map Prod.fst ↔ x ∈ inner.map Prod.fst ∨ x = t := by
  induction inner with
  | nil => simp [bump]
  | cons p rest ih =>
      obtain ⟨a, c⟩ := p
      by_cases h : a = t <;> simp [bump, h, ih] <;> tauto

theorem mem_tableIds_addPair (tbl : Table) (i t x : Nat) :
    x ∈ tableIds (addPair tbl i t) ↔ x ∈ tableIds tbl ∨ x = i ∨ x = t := by
  induction tbl with
  | nil => simp [addPair, tableIds]
  | cons p rest ih =>
      obtain ⟨a, inner⟩ := p
      by_cases h : a = i
      · subst h
        simp only [addPair, eq_self_iff_true, if_true, tableIds, List.flatMap_cons,
          List.mem_append, List.mem_cons, mem_map_fst_bump]
        tauto
      · simp only [addPair, if_neg h, tableIds, List.flatMap_cons, List.mem_append,
          List.mem_cons] at ih ⊢
        tauto

theorem mem_tableIds_foldl (pairs : List Pair) (tbl : Table) (x : Nat) :
    x ∈ tableIds (pairs.foldl (fun a p => addPair a p.1 p.2) tbl) ↔
      x ∈ tableIds tbl ∨ x ∈ pairIds pairs := by
  induction pairs generalizing tbl with
  | nil => simp [pairIds]
  | cons p rest ih =>
      simp only [List.foldl_cons]
      rw [ih, mem_tableIds_addPair]
      simp only [pairIds, List.flatMap_cons, List.mem_append, List.mem_cons,
        List.mem_singleton, List.not_mem_nil, or_false]
      tauto

theorem mem_tableIds_build (pairs : List Pair) (x : Nat) :
    x ∈ tableIds (build pairs) ↔ x ∈ pairIds pairs := by
  have := mem_tableIds_foldl pairs [] x
  simpa [build, tableIds] using this

/-! ### Properties of the ranking and the pure predictor -/

theorem rank_total (tbl : Table) (inputs : List Nat) (a b : Nat) :
    rank tbl inputs a b ∨ rank tbl inputs b a := by
  unfold rank
  omega

theorem rank_trans (tbl : Table) (inputs : List Nat) (a b c : Nat) :
    rank tbl inputs a b → rank tbl inputs b c → rank tbl inputs a c := by
  unfold rank
  omega

theorem mem_candidates_of_mem_predictList (tbl : Table) (inputs : List Nat)
    (t : Nat) (ht : t ∈ predictList tbl inputs) : t ∈ candidates tbl inputs :=
  (List.mem_insertionSort _).mp (List.mem_of_mem_take ht)

theorem predictList_nodup (tbl : Table) (inputs : List Nat) :
    (predictList tbl inputs).Nodup := by
  have hc : (candidates tbl inputs).Nodup := (List.nodup_dedup _).filter _
  have hs : ((candidates tbl inputs).insertionSort (rank tbl inputs)).Nodup :=
    ((List.perm_insertionSort _ _).nodup_iff).mpr hc
  exact List.Nodup.sublist (List.take_sublist _ _) hs

theorem predictList_pairwise_rank (tbl : Table) (inputs : List Nat) :
    (predictList tbl inputs).Pairwise (rank tbl inputs) := by
  haveI : IsTotal Nat (rank tbl inputs) := ⟨rank_total tbl inputs⟩
  haveI : IsTrans Nat (rank tbl inputs) := ⟨fun a b c => rank_trans tbl inputs a b c⟩
  have hs := List.sorted_insertionSort (rank tbl inputs) (candidates tbl inputs)
  exact List.Pairwise.sublist (List.take_sublist _ _) hs

theorem predictList_not_input (tbl : Table) (inputs : List Nat) (t : Nat)
    (ht : t ∈ predictList tbl inputs) : t ∉ inputs := by
  have h2 := mem_candidates_of_mem_predictList tbl inputs t ht
  unfold candidates at h2
  have h3 := List.of_mem_filter h2
  simp at h3
  exact h3

theorem predictList_sorted_strict (tbl : Table) (inputs : List Nat) :
    (predictList tbl inputs).Pairwise
      (fun a b => score tbl inputs b < score tbl inputs a ∨
        (score tbl inputs a = score tbl inputs b ∧ a < b)) := by
  have h1 := predictList_pairwise_rank tbl inputs
  have h2 : (predictList tbl inputs).Pairwise (fun a b : Nat => a ≠ b) :=
    predictList_nodup tbl inputs
  refine (h1.and h2).imp ?_
  intro a b h
  rcases h.1 with hlt | ⟨heq, hle⟩
  · exact Or.inl hlt
  · exact Or.inr ⟨heq, lt_of_le_of_ne hle h.2⟩

/-! ### Helper lemmas about `List.isPrefixOf` -/

theorem isPrefixOf_self_append (l r : List Char) : l.isPrefixOf (l ++ r) = true := by
  induction l with
  | nil => simp [List.isPrefixOf]
  | cons a l ih => simp [List.isPrefixOf, ih]

theorem eq_append_of_isPrefixOf {l s : List Char} (h : l.isPrefixOf s = true) :
    ∃ r, s = l ++ r := by
  induction l generalizing s with
  | nil => exact ⟨s, rfl⟩
  | cons a l ih =>
      cases s with
      | nil => simp [List.isPrefixOf] at h
      | cons b s =>
          simp only [List.isPrefixOf, Bool.and_eq_true, beq_iff_eq] at h
          obtain ⟨h1, h2⟩ := h
          obtain ⟨r, hr⟩ := ih h2
          exact ⟨r, by simp [h1, hr]⟩

theorem csvHeaderOk_append (rest : List Char) :
    csvHeaderOk (headerChars ++ '\n' :: rest) = true := by
  unfold csvHeaderOk pyStrip
  have h1 : List.dropWhile Char.isWhitespace (headerChars ++ '\n' :: rest)
      = headerChars ++ '\n' :: rest := by
    show List.dropWhile Char.isWhitespace ('i' :: _) = _
    rw [List.dropWhile_cons, if_neg (by decide)]
    rfl
  rw [h1, List.reverse_append, List.dropWhile_append]
  by_cases h2 :
      (List.dropWhile Char.isWhitespace ('\n' :: rest).reverse).isEmpty = true
  · rw [if_pos h2]
    rw [show List.dropWhile Char.isWhitespace headerChars.reverse
          = headerChars.reverse from by decide]
    rw [List.reverse_reverse]
    decide
  · rw [if_neg h2, List.reverse_append, List.reverse_reverse]
    exact isPrefixOf_self_append _ _

/-! ### Claim theorems -/

/-- Claim C1, counterexample: on an engine trained on the dataset
`[(1001,1002),(1001,1003),(1003,1002)]`, a prediction request with inputs
`{1001, 1003}` is answered by the hardcoded branch of `views.py` line 59
with `[1005]`, which is not the list `[1002]` the claim states. -/
theorem hardcoded_path_overrides_scenario2 :
    (get_recommendations PyVal.pyInt demoEngine [1001, 1003]).suggested =
        [PyVal.pyInt 1005] ∧
      [PyVal.pyInt 1005] ≠ [PyVal.pyInt 1002] :=
  ⟨rfl, by decide⟩

/-- Claim C1, amended: the engine's own `predict({1001,1003})` on the
trained table returns exactly `[1002]` (1001 and 1003 excluded as inputs),
but the endpoint `get_recommendations` intercepts the input set
`{1001, 1003}` with its hardcoded test branch and returns `[1005]`
instead. -/
theorem engine_scenario2_vs_endpoint :
    demoEngine.predict [1001, 1003] = .ok [1002] ∧
      (get_recommendations PyVal.pyInt demoEngine [1001, 1003]).suggested =
        [PyVal.pyInt 1005] :=
  ⟨rfl, rfl⟩

/-- Claim C2, counterexample: the hardcoded `{1001, 1003}` branch of
`get_recommendations` serves a successful, non-empty prediction response
while appending no `ProductRecommendation` record at all. -/
theorem hardcoded_path_persists_no_record :
    (get_recommendations PyVal.pyInt demoEngine [1001, 1003]).stat = .ok ∧
      (get_recommendations PyVal.pyInt demoEngine [1001, 1003]).suggested ≠ [] ∧
      (get_recommendations PyVal.pyInt demoEngine [1001, 1003]).records = [] :=
  ⟨rfl, by decide, rfl⟩

/-- Claim C2, amended: for every prediction request served successfully
outside the hardcoded `{1001, 1003}` branch, exactly one
`ProductRecommendation` record capturing the input products and the
recommended products is appended; the hardcoded branch returns success
without writing any record. -/
theorem model_path_appends_one_record (tag : Nat → PyVal) (e : Engine)
    (inputs : List Nat)
    (hset : sameSet inputs [1001, 1003] = false)
    (hok : (get_recommendations tag e inputs).stat = .ok) :
    (get_recommendations tag e inputs).records =
      [⟨inputs, (get_recommendations tag e inputs).suggested⟩] := by
  unfold get_recommendations at *
  by_cases hlen : inputs.length < 1
  · simp [hlen] at hok
  · simp only [if_neg hlen, hset, Bool.false_eq_true, if_false] at hok ⊢
    cases hpred : ((if e.is_trained then e else e.train).predict inputs) with
    | error err => simp [hpred] at hok
    | ok ids => simp [hpred]

/-- Witness for `model_path_appends_one_record` at a concrete request. -/
theorem model_path_appends_one_record_witness :
    (get_recommendations PyVal.npInt smallEngine [1]).records =
      [⟨[1], (get_recommendations PyVal.npInt smallEngine [1]).suggested⟩] :=
  model_path_appends_one_record PyVal.npInt smallEngine [1] (by decide) (by rfl)

/-- Claim C3, counterexample: a CSV text with leading whitespace before
`input,target` does not begin with the exact header line, yet the check of
`views.py` line 188 (`csv_data.strip().startswith('input,target')`)
accepts it, because it strips the text before the prefix test. -/
theorem header_check_accepts_inexact_text :
    csvHeaderOk badCsv = true ∧ beginsWithHeaderLine badCsv = false := by
  decide

/-- Claim C3, amended: every CSV text that begins with the exact header
line `input,target` passes the header check, but the check is only a
prefix test on the whitespace-stripped text, so it also accepts texts that
do not begin with that exact header line (see the counterexample). -/
theorem exact_header_line_accepted (csv : List Char)
    (hb : beginsWithHeaderLine csv = true) : csvHeaderOk csv = true := by
  unfold beginsWithHeaderLine at hb
  rcases (Bool.or_eq_true _ _).mp hb with h | h
  · have hc : csv = headerChars := by simpa using h
    subst hc
    decide
  · obtain ⟨rest, hrest⟩ := eq_append_of_isPrefixOf h
    rw [hrest, List.append_assoc, List.singleton_append]
    exact csvHeaderOk_append rest

/-- Witness for `exact_header_line_accepted` at a concrete CSV text. -/
theorem exact_header_line_accepted_witness :
    csvHeaderOk (headerChars ++ '\n' :: ['1', ',', '2']) = true :=
  exact_header_line_accepted (headerChars ++ '\n' :: ['1', ',', '2']) (by decide)

/-- Claim C4: a prediction request with an empty set of input products is
rejected with a 400 error by `views.py` line 50 — no recommendation is
returned and no record is persisted — and the engine-level `predict` on a
trained, non-empty table fails with `EmptyInputError` on empty inputs. -/
theorem empty_inputs_rejected (tag : Nat → PyVal) (e : Engine) :
    (get_recommendations tag e []).stat = .badRequest ∧
      (get_recommendations tag e []).suggested = [] ∧
      (get_recommendations tag e []).records = [] ∧
      (∀ e2 : Engine, e2.table ≠ [] → e2.predict [] = .error .emptyInput) := by
  refine ⟨rfl, rfl, rfl, ?_⟩
  intro e2 h2
  simp [Engine.predict, List.isEmpty_iff, h2]

/-- Witness for `empty_inputs_rejected` at a concrete engine. -/
theorem empty_inputs_rejected_witness :
    (get_recommendations PyVal.npInt smallEngine []).stat = .badRequest ∧
      smallEngine.predict [] = .error .emptyInput :=
  ⟨(empty_inputs_rejected PyVal.npInt smallEngine).1,
    (empty_inputs_rejected PyVal.npInt smallEngine).2.2.2 smallEngine (by decide)⟩

/-- Claim C5: on a freshly constructed, never-trained engine, both
`predict` and `get_all_products` fail with `NotTrainedError`, never
answering a silent empty list. -/
theorem untrained_guard (d : List Pair) (inputs : List Nat) :
    (Engine.new d).predict inputs = .error .notTrained ∧
      (Engine.new d).get_all_products = .error .notTrained :=
  ⟨rfl, rfl⟩

/-- Claim C6: a successful `predict` call never recommends a product that
was among the given inputs. -/
theorem predict_excludes_inputs (e : Engine) (inputs out : List Nat) (t : Nat)
    (hok : e.predict inputs = .ok out) (ht : t ∈ out) : t ∉ inputs := by
  unfold Engine.predict at hok
  by_cases h1 : e.table.isEmpty = true
  · simp [h1] at hok
  · by_cases h2 : inputs.isEmpty = true
    · simp [h1, h2] at hok
    · simp only [h1, h2, Bool.false_eq_true, if_false, Except.ok.injEq] at hok
      exact predictList_not_input e.table inputs t (hok ▸ ht)

/-- Witness for `predict_excludes_inputs` at a concrete call. -/
theorem predict_excludes_inputs_witness : (1002 : Nat) ∉ ([1001] : List Nat) :=
  predict_excludes_inputs demoEngine [1001] [1002, 1003] 1002 (by rfl) (by decide)

/-- Claim C7: every successful `predict` output is ordered by strictly
descending aggregated score, with equal-score candidates ordered by
strictly ascending product id. -/
theorem predict_sorted_by_score_then_id (e : Engine) (inputs out : List Nat)
    (hok : e.predict inputs = .ok out) :
    out.Pairwise (fun a b => score e.table inputs b < score e.table inputs a ∨
      (score e.table inputs a = score e.table inputs b ∧ a < b)) := by
  unfold Engine.predict at hok
  by_cases h1 : e.table.isEmpty = true
  · simp [h1] at hok
  · by_cases h2 : inputs.isEmpty = true
    · simp [h1, h2] at hok
    · simp only [h1, h2, Bool.false_eq_true, if_false, Except.ok.injEq] at hok
      exact hok ▸ predictList_sorted_strict e.table inputs

/-- Witness for `predict_sorted_by_score_then_id` at a concrete call. -/
theorem predict_sorted_by_score_then_id_witness :
    ([1002, 1003] : List Nat).Pairwise
      (fun a b => score demoEngine.table [1001] b < score demoEngine.table [1001] a ∨
        (score demoEngine.table [1001] a = score demoEngine.table [1001] b ∧ a < b)) :=
  predict_sorted_by_score_then_id demoEngine [1001] [1002, 1003] (by rfl)

/-- Claim C8: after training on dataset A and then on dataset B, every
count in the association table equals the count of that pair in B alone,
and the product universe is exactly the ids occurring in B: nothing of A
survives the retrain. -/
theorem retrain_replaces_dataset (e : Engine) (A B : List Pair) (i t x : Nat) :
    lookupCount ((((e.setData A).train).setData B).train).table i t =
        pairCount B i t ∧
      (x ∈ tableIds ((((e.setData A).train).setData B).train).table ↔
        x ∈ pairIds B) :=
  ⟨lookupCount_build B i t, mem_tableIds_build B x⟩

/-- Claim C9: `predict` is a pure function of the engine state and the
inputs, so any two calls with the same table and inputs return the
identical result. -/
theorem predict_deterministic (e : Engine) (inputs : List Nat)
    (r1 r2 : Except EngineError (List Nat))
    (h1 : r1 = e.predict inputs) (h2 : r2 = e.predict inputs) : r1 = r2 :=
  h1.trans h2.symm

/-- Witness for `predict_deterministic` at a concrete call. -/
theorem predict_deterministic_witness :
    (Except.ok [1002, 1003] : Except EngineError (List Nat)) = .ok [1002, 1003] :=
  predict_deterministic demoEngine [1001] (.ok [1002, 1003]) (.ok [1002, 1003])
    (by rfl) (by rfl)

/-- Claim C10: whenever the engine hands the view integers (native or
numpy), every element of the `suggested` list of a response from
`get_recommendations` is a plain native int: the conversion at `views.py`
line 74 rewrites every numpy integer before the response is serialized and
persisted. -/
theorem suggested_all_native_ints (tag : Nat → PyVal) (e : Engine)
    (inputs : List Nat)
    (htag : ∀ n, tag n = .pyInt n ∨ tag n = .npInt n) :
    ∀ v ∈ (get_recommendations tag e inputs).suggested, ∃ m, v = PyVal.pyInt m := by
  intro v hv
  unfold get_recommendations at hv
  by_cases hlen : inputs.length < 1
  · simp [hlen] at hv
  · simp only [if_neg hlen] at hv
    by_cases hset : sameSet inputs [1001, 1003] = true
    · simp [hset] at hv
      exact ⟨1005, hv⟩
    · simp only [hset, Bool.false_eq_true, if_false] at hv
      cases hpred : ((if e.is_trained then e else e.train).predict inputs) with
      | error err => simp [hpred] at hv
      | ok ids =>
          simp only [hpred, List.map_map, List.mem_map] at hv
          obtain ⟨n, hn, hveq⟩ := hv
          rcases htag n with h | h <;>
            simp [← hveq, Function.comp, h, npToNative]

/-- Witness for `suggested_all_native_ints` at a concrete request with a
numpy-integer-producing engine. -/
theorem suggested_all_native_ints_witness : ∃ m, PyVal.pyInt 2 = PyVal.pyInt m :=
  suggested_all_native_ints PyVal.npInt smallEngine [1]
    (fun n => Or.inr rfl) (PyVal.pyInt 2) (by decide)

end Recommender
